import Mathlib

/-!
Shallow embedding of the Czech Real Estate Tracker's canonical store
(`src/unnamed/part_000`, the PostgreSQL schema with its triggers,
mirrored by `src/init.sql`) and of the favorites client API
(`src/unnamed/part_007`).

Numeric columns (`NUMERIC(14,2)`, `NUMERIC(10,2)`) are modelled as exact
rationals `ℚ`; nullable columns as `Option`; timestamps as a logical
`Nat` clock (`NOW()` is the state's `now`).  Columns of `properties`
that no trigger, constraint or claim touches (url, property_type,
transaction_type, disposition, currency, rooms, coordinates, ku fields,
images, raw_data, missed_runs, first/last_seen, created_at) are omitted
from the row type; they are inert payload for every modelled operation.
Tables other than `properties` and `price_history` are likewise omitted.
-/

/-- Postgres tsvector weight labels; `A` ranks highest, `D` lowest. -/
inductive Weight : Type where
  | A | B | C | D
deriving DecidableEq, Repr

/-- Numeric rank of a tsvector weight (higher = ranked higher). -/
def Weight.rank : Weight → Nat
  | .A => 3
  | .B => 2
  | .C => 1
  | .D => 0

/-- A lexeme list with a weight attached to each lexeme; the modelled
tsvector is the concatenation of weighted lexeme lists. -/
abbrev Tsvector := List (String × Weight)

/-- One row of `properties` (the columns the triggers, the constraints
and the claims touch; see the file comment for the omitted payload). -/
structure PropertyRow : Type where
  id : Nat
  source : String
  externalId : String
  title : Option String
  description : Option String
  city : Option String
  district : Option String
  address : Option String
  price : Option ℚ
  sizeM2 : Option ℚ
  status : String
  duplicateOf : Option Nat
  updatedAt : Nat
  searchVector : Tsvector
deriving DecidableEq, Repr

/-- One row of `price_history`.  `price` is `NOT NULL`, hence bare `ℚ`;
`price_per_m2` is nullable. -/
structure PriceHistoryRow : Type where
  id : Nat
  propertyId : Nat
  price : ℚ
  pricePerM2 : Option ℚ
  recordedAt : Nat
deriving DecidableEq, Repr

/-- The modelled database state: the two tables, the `price_history`
id sequence, and the logical clock. -/
structure DB : Type where
  properties : List PropertyRow
  priceHistory : List PriceHistoryRow
  nextHistoryId : Nat
  now : Nat
deriving DecidableEq, Repr

/-- Errors an SQL statement can raise in the modelled fragment. -/
inductive DBError : Type where
  | uniqueViolation
  | notNullViolation
  | fkViolation
deriving DecidableEq, Repr

deriving instance DecidableEq for Except

/-- Round-half-away-from-zero to an integer, the rounding Postgres
`ROUND` uses on `NUMERIC`. -/
def roundHalfAway (x : ℚ) : ℤ :=
  if 0 ≤ x then ⌊x + 1 / 2⌋ else -⌊-x + 1 / 2⌋

/-- `ROUND(x, 2)`: round to two decimal places, half away from zero. -/
def roundTo2 (x : ℚ) : ℚ :=
  (roundHalfAway (x * 100) : ℚ) / 100

/-- The `VALUES` expression
`CASE WHEN NEW.size_m2 > 0 THEN ROUND(NEW.price / NEW.size_m2, 2) END`
shared by both price-history triggers: SQL `NULL` propagates through
`>` and `/`, so a null price or a null size yields `NULL`. -/
def pricePerM2Of (price : Option ℚ) (sizeM2 : Option ℚ) : Option ℚ :=
  match price, sizeM2 with
  | some p, some s => if 0 < s then some (roundTo2 (p / s)) else none
  | _, _ => none

/-- Maximal alphanumeric runs of a character list (fuel-bounded
structural recursion; the fuel is the list length, which never runs
out). -/
def tokenizeAux : Nat → List Char → List (List Char)
  | 0, _ => []
  | _ + 1, [] => []
  | fuel + 1, c :: cs =>
      if c.isAlphanum then
        (c :: cs.takeWhile Char.isAlphanum) ::
          tokenizeAux fuel (cs.dropWhile Char.isAlphanum)
      else tokenizeAux fuel cs

/-- Tokenization of the `simple` text-search configuration: split into
maximal alphanumeric runs, lowercase them, drop everything else; no
stemming, no stop words (modelled on ASCII). -/
def simpleTokens (s : String) : List String :=
  (tokenizeAux s.data.length s.data).map fun cs =>
    String.mk (cs.map Char.toLower)

/-- `to_tsvector('simple', COALESCE(x, ''))`. -/
def toTsvectorSimple (x : Option String) : List String :=
  simpleTokens (x.getD "")

/-- `setweight(ts, w)`: attach weight `w` to every lexeme. -/
def setweight (ts : List String) (w : Weight) : Tsvector :=
  ts.map fun t => (t, w)

/-- The trigger function `properties_search_vector_update`
(part_000 lines 177-188): recompute `NEW.search_vector` from title and
city at weight A, district and address at weight B, description at
weight C, all under the `simple` configuration. -/
def properties_search_vector_update (new : PropertyRow) : PropertyRow :=
  { new with searchVector :=
      setweight (toTsvectorSimple new.title) Weight.A ++
      setweight (toTsvectorSimple new.city) Weight.A ++
      setweight (toTsvectorSimple new.district) Weight.B ++
      setweight (toTsvectorSimple new.address) Weight.B ++
      setweight (toTsvectorSimple new.description) Weight.C }

/-- The trigger function `update_updated_at` (part_000 lines 110-116):
`NEW.updated_at = NOW()`. -/
def update_updated_at (db : DB) (new : PropertyRow) : PropertyRow :=
  { new with updatedAt := db.now }

/-- The trigger function `track_price_change` (part_000 lines 88-102),
fired `BEFORE UPDATE` on `properties`.  When `OLD.price IS DISTINCT
FROM NEW.price` it inserts one `price_history` row and bumps
`NEW.updated_at`; inserting a `NULL` price violates the table's
`NOT NULL` constraint and aborts the statement.  Returns the (possibly
modified) `NEW` row and the row to append, if any. -/
def track_price_change (db : DB) (old new : PropertyRow) :
    Except DBError (PropertyRow × Option PriceHistoryRow) :=
  if old.price = new.price then
    Except.ok (new, none)
  else
    match new.price with
    | none => Except.error DBError.notNullViolation
    | some p =>
        Except.ok
          ({ new with updatedAt := db.now },
           some { id := db.nextHistoryId, propertyId := new.id, price := p,
                  pricePerM2 := pricePerM2Of new.price new.sizeM2,
                  recordedAt := db.now })

/-- The trigger function `record_initial_price` (part_000 lines 124-137),
fired `AFTER INSERT` on `properties`: when `NEW.price IS NOT NULL`,
insert one `price_history` row. -/
def record_initial_price (db : DB) (new : PropertyRow) :
    Option PriceHistoryRow :=
  match new.price with
  | none => none
  | some p =>
      some { id := db.nextHistoryId, propertyId := new.id, price := p,
             pricePerM2 := pricePerM2Of new.price new.sizeM2,
             recordedAt := db.now }

/-- The values an `INSERT INTO properties` supplies for the modelled
columns (`search_vector` is filled by the `BEFORE INSERT` trigger,
`updated_at` by its `DEFAULT NOW()`). -/
structure NewProperty : Type where
  id : Nat
  source : String
  externalId : String
  title : Option String
  description : Option String
  city : Option String
  district : Option String
  address : Option String
  price : Option ℚ
  sizeM2 : Option ℚ
  status : String
  duplicateOf : Option Nat
deriving DecidableEq, Repr

/-- The `properties` row an insert starts from, before triggers run. -/
def NewProperty.toRow (np : NewProperty) (now : Nat) : PropertyRow :=
  { id := np.id, source := np.source, externalId := np.externalId,
    title := np.title, description := np.description, city := np.city,
    district := np.district, address := np.address, price := np.price,
    sizeM2 := np.sizeM2, status := np.status,
    duplicateOf := np.duplicateOf, updatedAt := now, searchVector := [] }

/-- Does a `duplicate_of` value satisfy its foreign key
`REFERENCES properties(id)` against the given table contents? -/
def fkDupOk (props : List PropertyRow) (dup : Option Nat) : Bool :=
  match dup with
  | none => true
  | some q => props.any fun r => r.id == q

/-- `INSERT INTO properties`: check the `uq_source_external` unique
constraint (part_000 line 37) and the primary key; fire the
`BEFORE INSERT` search-vector trigger; check the `duplicate_of`
foreign key against the post-insert table; then fire the
`AFTER INSERT` trigger `record_initial_price`. -/
def insertProperty (db : DB) (np : NewProperty) : Except DBError DB :=
  if db.properties.any
      (fun r => r.source == np.source && r.externalId == np.externalId) then
    Except.error DBError.uniqueViolation
  else if db.properties.any (fun r => r.id == np.id) then
    Except.error DBError.uniqueViolation
  else
    let row := properties_search_vector_update (np.toRow db.now)
    let props := db.properties ++ [row]
    if fkDupOk props np.duplicateOf then
      match record_initial_price db row with
      | none => Except.ok { db with properties := props }
      | some h =>
          Except.ok { db with
                        properties := props,
                        priceHistory := db.priceHistory ++ [h],
                        nextHistoryId := db.nextHistoryId + 1 }
    else Except.error DBError.fkViolation

/-- An `UPDATE properties SET ... WHERE id = ...` statement issued by
the ingestion merge path or the duplicate marker: `some v` for a column
means the statement's SET list assigns it the value `v` (which may be
SQL `NULL`, i.e. `none`); `none` means the column is not mentioned.
The merge path never rewrites `id`, `source` or `external_id`. -/
structure PropertyUpdate : Type where
  setTitle : Option (Option String)
  setDescription : Option (Option String)
  setCity : Option (Option String)
  setDistrict : Option (Option String)
  setAddress : Option (Option String)
  setPrice : Option (Option ℚ)
  setSizeM2 : Option (Option ℚ)
  setStatus : Option String
  setDuplicateOf : Option (Option Nat)
deriving DecidableEq, Repr

/-- The `NEW` row an `UPDATE` builds from the `OLD` row before any
trigger fires. -/
def applyUpdate (u : PropertyUpdate) (old : PropertyRow) : PropertyRow :=
  { old with
    title := u.setTitle.getD old.title,
    description := u.setDescription.getD old.description,
    city := u.setCity.getD old.city,
    district := u.setDistrict.getD old.district,
    address := u.setAddress.getD old.address,
    price := u.setPrice.getD old.price,
    sizeM2 := u.setSizeM2.getD old.sizeM2,
    status := u.setStatus.getD old.status,
    duplicateOf := u.setDuplicateOf.getD old.duplicateOf }

/-- Does the UPDATE's SET list mention one of `title, city, district,
address, description`?  `trg_search_vector` is declared
`BEFORE INSERT OR UPDATE OF` exactly those columns (part_000 line 191)
and so fires on updates precisely when it does. -/
def touchesSearchCols (u : PropertyUpdate) : Bool :=
  u.setTitle.isSome || u.setCity.isSome || u.setDistrict.isSome ||
  u.setAddress.isSome || u.setDescription.isSome

/-- `UPDATE properties SET ... WHERE id = pid`.  No matching row is a
no-op.  On a match, the `BEFORE UPDATE` triggers fire in name order —
`trg_price_change`, then `trg_search_vector` (only when the SET list
touches its columns), then `trg_updated_at` — after which the
`duplicate_of` foreign key is checked and the row replaced.  A failed
`price_history` insert or foreign key aborts the whole statement,
leaving every table unchanged. -/
def updateProperty (db : DB) (pid : Nat) (u : PropertyUpdate) :
    Except DBError DB :=
  match db.properties.find? (fun r => r.id == pid) with
  | none => Except.ok db
  | some old =>
      match track_price_change db old (applyUpdate u old) with
      | Except.error e => Except.error e
      | Except.ok (new1, hist?) =>
          let new2 := if touchesSearchCols u then
                        properties_search_vector_update new1
                      else new1
          let new3 := update_updated_at db new2
          if fkDupOk db.properties new3.duplicateOf then
            let props := db.properties.map fun r =>
              if r.id == pid then new3 else r
            match hist? with
            | none => Except.ok { db with properties := props }
            | some h =>
                Except.ok { db with
                              properties := props,
                              priceHistory := db.priceHistory ++ [h],
                              nextHistoryId := db.nextHistoryId + 1 }
          else Except.error DBError.fkViolation

/-- `DELETE FROM properties WHERE id = pid`.  `price_history` rows of
the deleted property are removed (`ON DELETE CASCADE`, part_000 line
42); `duplicate_of` references to it are set to `NULL`
(`ON DELETE SET NULL`, line 30), an internal `UPDATE` whose only fired
row trigger is `trg_updated_at` (`trg_price_change` sees an unchanged
price and `trg_search_vector`'s column list is not touched). -/
def deleteProperty (db : DB) (pid : Nat) : DB :=
  { db with
    properties := (db.properties.filter fun r => r.id ≠ pid).map fun r =>
      if r.duplicateOf = some pid then
        { r with duplicateOf := none, updatedAt := db.now }
      else r,
    priceHistory := db.priceHistory.filter fun h => h.propertyId ≠ pid }

/-- Look a property up by id. -/
def getProperty (db : DB) (pid : Nat) : Option PropertyRow :=
  db.properties.find? fun r => r.id == pid

/-- Modelled from the spec: the Deduplication Resolver's chain-root
resolution ("resolve to root before assignment", spec §3; "the new
record's duplicate_of is set to the *root* of the matched candidate's
duplicate chain (never to a non-root)", spec §4.2).  The resolver
itself is not under `src/`; only the `duplicate_of` column it writes
is.  Follows `duplicate_of` pointers from `pid` with fuel bounded by
the table size. -/
def resolveRoot (db : DB) (pid : Nat) : Nat :=
  go db.properties.length pid
where
  /-- Fuel-bounded pointer chase. -/
  go : Nat → Nat → Nat
    | 0, p => p
    | fuel + 1, p =>
        match getProperty db p with
        | none => p
        | some r =>
            match r.duplicateOf with
            | none => p
            | some q => go fuel q

/-- Modelled from the spec: the Deduplication Resolver's
duplicate-marking step — an `UPDATE` that sets the new record's
`duplicate_of` to the root of the matched candidate's chain (spec
§4.2).  The resolver itself is not under `src/`. -/
def markDuplicate (db : DB) (newId candId : Nat) : Except DBError DB :=
  updateProperty db newId
    { setTitle := none, setDescription := none, setCity := none,
      setDistrict := none, setAddress := none, setPrice := none,
      setSizeM2 := none, setStatus := none,
      setDuplicateOf := some (some (resolveRoot db candId)) }

/-- Modelled from the spec: the Market Statistics Aggregator's median
("exact median of price_per_m2 (for an even-sized sorted sample, the
median is the average of the two middle values)", spec §4.5).  The
aggregator is not under `src/`; only the `ku_price_stats` table it
fills is (part_000 lines 249-260). -/
def medianQ (l : List ℚ) : Option ℚ :=
  match l with
  | [] => none
  | _ :: _ =>
      let s := List.insertionSort (· ≤ ·) l
      let n := l.length
      if n % 2 = 1 then some (s.getD (n / 2) 0)
      else some ((s.getD (n / 2 - 1) 0 + s.getD (n / 2) 0) / 2)

/-- Modelled from the spec, same provenance as `medianQ`: the
aggregator's arithmetic mean of a sample. -/
def meanQ (l : List ℚ) : Option ℚ :=
  match l with
  | [] => none
  | _ :: _ => some (l.sum / l.length)

/-- `Response.ok` of the WHATWG fetch API used by the client: status
in the inclusive range 200-299. -/
def responseOk (status : Nat) : Bool :=
  200 ≤ status && status ≤ 299

/-- The client's `addFavorite` (part_007 lines 122-131) as a function
of the HTTP status the POST came back with: it throws exactly when
`!res.ok && res.status !== 409`. -/
def addFavorite (status : Nat) : Except String Unit :=
  if !responseOk status && status != 409 then
    Except.error ("API error: " ++ toString status)
  else
    Except.ok ()

/-- The client's `removeFavorite` (part_007 lines 133-140) as a
function of the HTTP status the DELETE came back with: it throws
exactly when `!res.ok && res.status !== 404`. -/
def removeFavorite (status : Nat) : Except String Unit :=
  if !responseOk status && status != 404 then
    Except.error ("API error: " ++ toString status)
  else
    Except.ok ()

/-- Stated from the spec's words, for comparison with the triggers'
`pricePerM2Of`: "price_per_m2 = round(price / size_m2, 2) when
size_m2 > 0, else null" (spec §4.3, §8). -/
def pricePerM2Spec (price : ℚ) (sizeM2 : Option ℚ) : Option ℚ :=
  match sizeM2 with
  | some s => if 0 < s then some (roundTo2 (price / s)) else none
  | none => none

/-- The invariant of the `uq_source_external` constraint: any two
distinct `properties` rows differ in source or in external id. -/
def uniquePairs (db : DB) : Prop :=
  db.properties.Pairwise fun a b => a.source ≠ b.source ∨ a.externalId ≠ b.externalId

/-- The primary-key invariant: any two distinct `properties` rows have
different ids. -/
def idsUnique (db : DB) : Prop :=
  db.properties.Pairwise fun a b => a.id ≠ b.id

/-- The no-chain invariant on `duplicate_of`: any row a `duplicate_of`
pointer reaches has a null `duplicate_of` of its own, so every chase
terminates after at most one hop (in particular there is no cycle and
no chain of length greater than one). -/
def noChains (db : DB) : Prop :=
  ∀ r ∈ db.properties, ∀ p ∈ db.properties,
    r.duplicateOf = some p.id → p.duplicateOf = none

/-- Referential integrity of the modelled foreign keys: every
`price_history.property_id` and every set `duplicate_of` references an
existing `properties` row. -/
def refIntegrity (db : DB) : Prop :=
  (∀ h ∈ db.priceHistory, ∃ p ∈ db.properties, p.id = h.propertyId) ∧
  (∀ r ∈ db.properties, fkDupOk db.properties r.duplicateOf = true)

instance (db : DB) : Decidable (uniquePairs db) := by
  unfold uniquePairs; infer_instance

instance (db : DB) : Decidable (idsUnique db) := by
  unfold idsUnique; infer_instance

instance (db : DB) : Decidable (noChains db) := by
  unfold noChains; infer_instance

instance (db : DB) : Decidable (refIntegrity db) := by
  unfold refIntegrity; infer_instance

/-! Concrete fixtures used by the witness theorems. -/

/-- An empty store. -/
def exDb0 : DB :=
  { properties := [], priceHistory := [], nextHistoryId := 1, now := 0 }

/-- A listing with no price. -/
def exNpNoPrice : NewProperty :=
  { id := 2, source := "sreality", externalId := "a2", title := none,
    description := none, city := none, district := none, address := none,
    price := none, sizeM2 := none, status := "active", duplicateOf := none }

/-- A listing with a price but no floor area. -/
def exNpPriced : NewProperty :=
  { id := 3, source := "sreality", externalId := "a3", title := none,
    description := none, city := none, district := none, address := none,
    price := some 200, sizeM2 := none, status := "active",
    duplicateOf := none }

/-- The store after inserting `exNpNoPrice` into `exDb0`. -/
def exDbNoPrice : DB :=
  { properties := [{ id := 2, source := "sreality", externalId := "a2",
                     title := none, description := none, city := none,
                     district := none, address := none, price := none,
                     sizeM2 := none, status := "active",
                     duplicateOf := none, updatedAt := 0,
                     searchVector := [] }],
    priceHistory := [], nextHistoryId := 1, now := 0 }

/-- The store after inserting `exNpPriced` into `exDb0`. -/
def exDbPriced : DB :=
  { properties := [{ id := 3, source := "sreality", externalId := "a3",
                     title := none, description := none, city := none,
                     district := none, address := none, price := some 200,
                     sizeM2 := none, status := "active",
                     duplicateOf := none, updatedAt := 0,
                     searchVector := [] }],
    priceHistory := [{ id := 1, propertyId := 3, price := 200,
                       pricePerM2 := none, recordedAt := 0 }],
    nextHistoryId := 2, now := 0 }

/-- An existing listing row: id 1, price 100, no floor area. -/
def exRowU : PropertyRow :=
  { id := 1, source := "sreality", externalId := "u1", title := none,
    description := none, city := none, district := none, address := none,
    price := some 100, sizeM2 := none, status := "active",
    duplicateOf := none, updatedAt := 0, searchVector := [] }

/-- A store holding just `exRowU`. -/
def exDbU : DB :=
  { properties := [exRowU], priceHistory := [], nextHistoryId := 5, now := 7 }

/-- An update statement that only sets `price = 150`. -/
def exUSetPrice : PropertyUpdate :=
  { setTitle := none, setDescription := none, setCity := none,
    setDistrict := none, setAddress := none, setPrice := some (some 150),
    setSizeM2 := none, setStatus := none, setDuplicateOf := none }

/-- An update statement that sets `price = NULL`. -/
def exUNullPrice : PropertyUpdate :=
  { setTitle := none, setDescription := none, setCity := none,
    setDistrict := none, setAddress := none, setPrice := some none,
    setSizeM2 := none, setStatus := none, setDuplicateOf := none }

/-- An update statement that sets nothing at all. -/
def exUNoop : PropertyUpdate :=
  { setTitle := none, setDescription := none, setCity := none,
    setDistrict := none, setAddress := none, setPrice := none,
    setSizeM2 := none, setStatus := none, setDuplicateOf := none }

/-- The store after `exUSetPrice` runs against `exDbU`. -/
def exDbURes : DB :=
  { properties := [{ id := 1, source := "sreality", externalId := "u1",
                     title := none, description := none, city := none,
                     district := none, address := none, price := some 150,
                     sizeM2 := none, status := "active",
                     duplicateOf := none, updatedAt := 7,
                     searchVector := [] }],
    priceHistory := [{ id := 5, propertyId := 1, price := 150,
                       pricePerM2 := none, recordedAt := 7 }],
    nextHistoryId := 6, now := 7 }

/-- A flat listing: 3,000,000 CZK, 60 m². -/
def exNpFlat : NewProperty :=
  { id := 4, source := "bezrealitky", externalId := "f4", title := none,
    description := none, city := none, district := none, address := none,
    price := some 3000000, sizeM2 := some 60, status := "active",
    duplicateOf := none }

/-- The price-history row the insert of `exNpFlat` creates. -/
def exHistFlat : PriceHistoryRow :=
  { id := 1, propertyId := 4, price := 3000000,
    pricePerM2 := pricePerM2Of (some 3000000) (some 60), recordedAt := 0 }

/-- The store after inserting `exNpFlat` into `exDb0`. -/
def exDbFlat : DB :=
  { properties := [{ id := 4, source := "bezrealitky", externalId := "f4",
                     title := none, description := none, city := none,
                     district := none, address := none,
                     price := some 3000000, sizeM2 := some 60,
                     status := "active", duplicateOf := none,
                     updatedAt := 0, searchVector := [] }],
    priceHistory := [exHistFlat], nextHistoryId := 2, now := 0 }

/-- A canonical row (id 1) for the deletion fixture. -/
def exRowA : PropertyRow :=
  { id := 1, source := "s", externalId := "a", title := none,
    description := none, city := none, district := none, address := none,
    price := some 50, sizeM2 := none, status := "active",
    duplicateOf := none, updatedAt := 0, searchVector := [] }

/-- A row (id 2) marked duplicate of row 1. -/
def exRowB : PropertyRow :=
  { id := 2, source := "s", externalId := "b", title := none,
    description := none, city := none, district := none, address := none,
    price := some 60, sizeM2 := none, status := "active",
    duplicateOf := some 1, updatedAt := 0, searchVector := [] }

/-- Row 2 after the set-null fixup that deleting row 1 performs. -/
def exRowBAfter : PropertyRow :=
  { id := 2, source := "s", externalId := "b", title := none,
    description := none, city := none, district := none, address := none,
    price := some 60, sizeM2 := none, status := "active",
    duplicateOf := none, updatedAt := 9, searchVector := [] }

/-- History row owned by property 1. -/
def exHistA : PriceHistoryRow :=
  { id := 1, propertyId := 1, price := 50, pricePerM2 := none,
    recordedAt := 0 }

/-- History row owned by property 2. -/
def exHistB : PriceHistoryRow :=
  { id := 2, propertyId := 2, price := 60, pricePerM2 := none,
    recordedAt := 0 }

/-- A store with a canonical row, a duplicate of it, and one history
row each. -/
def exDbDel : DB :=
  { properties := [exRowA, exRowB], priceHistory := [exHistA, exHistB],
    nextHistoryId := 3, now := 9 }

/-- A listing whose (source, external_id) collides with `exRowU`. -/
def exNpDupPair : NewProperty :=
  { id := 9, source := "sreality", externalId := "u1", title := none,
    description := none, city := none, district := none, address := none,
    price := none, sizeM2 := none, status := "active",
    duplicateOf := none }

/-- A row with text in every weighted field group. -/
def exRowSearch : PropertyRow :=
  { id := 8, source := "s", externalId := "q", title := some "Byt Praha",
    description := some "pekny byt", city := none,
    district := some "Karlin", address := none, price := none,
    sizeM2 := none, status := "active", duplicateOf := none,
    updatedAt := 0, searchVector := [] }

/-- An update statement that only sets the title. -/
def exUSetTitle : PropertyUpdate :=
  { setTitle := some (some "Novy byt"), setDescription := none,
    setCity := none, setDistrict := none, setAddress := none,
    setPrice := none, setSizeM2 := none, setStatus := none,
    setDuplicateOf := none }

/-- `exRowU` after `exUSetTitle`: fresh title, recomputed search
vector, bumped `updated_at`. -/
def exRowTitled : PropertyRow :=
  { id := 1, source := "sreality", externalId := "u1",
    title := some "Novy byt", description := none, city := none,
    district := none, address := none, price := some 100, sizeM2 := none,
    status := "active", duplicateOf := none, updatedAt := 7,
    searchVector := [("novy", Weight.A), ("byt", Weight.A)] }

/-- The store after `exUSetTitle` runs against `exDbU`. -/
def exDbUTitleRes : DB :=
  { properties := [exRowTitled], priceHistory := [],
    nextHistoryId := 5, now := 7 }

/-- A freshly created row (id 3) nothing points at. -/
def exRowC : PropertyRow :=
  { id := 3, source := "s", externalId := "c", title := none,
    description := none, city := none, district := none, address := none,
    price := none, sizeM2 := none, status := "active",
    duplicateOf := none, updatedAt := 0, searchVector := [] }

/-- Row 3 after being marked duplicate of root 1. -/
def exRowCAfter : PropertyRow :=
  { id := 3, source := "s", externalId := "c", title := none,
    description := none, city := none, district := none, address := none,
    price := none, sizeM2 := none, status := "active",
    duplicateOf := some 1, updatedAt := 0, searchVector := [] }

/-- A store with a root (1), one duplicate of it (2), and a fresh
row (3); clock at 0 so the fixup leaves timestamps alone. -/
def exDbDup : DB :=
  { properties := [{ exRowA with price := none },
                   { exRowB with price := none }, exRowC],
    priceHistory := [], nextHistoryId := 1, now := 0 }

/-- `exDbDup` after row 3 is marked duplicate of row 2's root. -/
def exDbDupRes : DB :=
  { properties := [{ exRowA with price := none },
                   { exRowB with price := none }, exRowCAfter],
    priceHistory := [], nextHistoryId := 1, now := 0 }

/-- Claim C8: a successful property insert appends no price-history row
when the price is null, and exactly one — carrying that price — when it
is not. -/
theorem c8_initial_price_once (db : DB) (np : NewProperty) (db' : DB)
    (h : insertProperty db np = Except.ok db') :
    (np.price = none → db'.priceHistory = db.priceHistory) ∧
    (∀ p : ℚ, np.price = some p →
      db'.priceHistory = db.priceHistory ++
        [{ id := db.nextHistoryId, propertyId := np.id, price := p,
           pricePerM2 := pricePerM2Of np.price np.sizeM2,
           recordedAt := db.now }]) := by
  simp only [insertProperty] at h
  split at h
  · exact absurd h (by simp)
  · split at h
    · exact absurd h (by simp)
    · split at h
      case isTrue hfk =>
        constructor
        · intro hnone
          split at h
          case h_1 heq =>
            simp only [Except.ok.injEq] at h
            subst h
            rfl
          case h_2 h1 heq =>
            simp only [record_initial_price, properties_search_vector_update,
              NewProperty.toRow, hnone] at heq
            exact Option.noConfusion heq
        · intro p hp
          split at h
          case h_1 heq =>
            simp only [record_initial_price, properties_search_vector_update,
              NewProperty.toRow, hp] at heq
            exact Option.noConfusion heq
          case h_2 h1 heq =>
            simp only [record_initial_price, properties_search_vector_update,
              NewProperty.toRow, hp, Option.some.injEq] at heq
            subst heq
            simp only [Except.ok.injEq] at h
            subst h
            rw [hp]
      case isFalse hfk => exact absurd h (by simp)

/-- Witness for C8 at a concrete store: a null-price listing yields no
history row, a priced one yields exactly one. -/
theorem c8_initial_price_once_witness :
    insertProperty exDb0 exNpNoPrice = Except.ok exDbNoPrice ∧
    exDbNoPrice.priceHistory = exDb0.priceHistory ∧
    insertProperty exDb0 exNpPriced = Except.ok exDbPriced ∧
    exDbPriced.priceHistory = exDb0.priceHistory ++
      [{ id := 1, propertyId := 3, price := 200, pricePerM2 := none,
         recordedAt := 0 }] :=
  ⟨by decide,
   (c8_initial_price_once exDb0 exNpNoPrice exDbNoPrice (by decide)).1 rfl,
   by decide,
   (c8_initial_price_once exDb0 exNpPriced exDbPriced (by decide)).2 200 rfl⟩

/-- Claim C1: for a successful update of an existing property, an
unchanged price appends no price-history row, and a changed price
appends exactly one row carrying the new price. -/
theorem c1_price_update_appends_iff_changed (db : DB) (pid : Nat) (old : PropertyRow)
    (u : PropertyUpdate) (db' : DB)
    (hold : getProperty db pid = some old)
    (h : updateProperty db pid u = Except.ok db') :
    ((applyUpdate u old).price = old.price →
      db'.priceHistory = db.priceHistory) ∧
    (∀ p : ℚ, (applyUpdate u old).price = some p → old.price ≠ some p →
      db'.priceHistory = db.priceHistory ++
        [{ id := db.nextHistoryId, propertyId := old.id, price := p,
           pricePerM2 := pricePerM2Of (some p) (applyUpdate u old).sizeM2,
           recordedAt := db.now }]) := by
  simp only [getProperty] at hold
  by_cases heq : old.price = (applyUpdate u old).price
  · have htr : track_price_change db old (applyUpdate u old) =
        Except.ok (applyUpdate u old, none) := by
      simp only [track_price_change, if_pos heq]
    simp only [updateProperty, hold, htr] at h
    split at h
    · split at h
      · simp only [Except.ok.injEq] at h
        subst h
        refine ⟨fun _ => rfl, fun p hp hne => ?_⟩
        rw [heq] at hne
        exact absurd hp hne
      · exact absurd h fun hc => Except.noConfusion hc
    · split at h
      · simp only [Except.ok.injEq] at h
        subst h
        refine ⟨fun _ => rfl, fun p hp hne => ?_⟩
        rw [heq] at hne
        exact absurd hp hne
      · exact absurd h fun hc => Except.noConfusion hc
  · cases hcase : (applyUpdate u old).price with
    | none =>
      rw [hcase] at heq
      have htr : track_price_change db old (applyUpdate u old) =
          Except.error DBError.notNullViolation := by
        simp only [track_price_change, hcase, if_neg heq]
      simp only [updateProperty, hold, htr] at h
      exact absurd h fun hc => Except.noConfusion hc
    | some p' =>
      rw [hcase] at heq
      have htr : track_price_change db old (applyUpdate u old) =
          Except.ok ({ applyUpdate u old with updatedAt := db.now },
            some { id := db.nextHistoryId,
                   propertyId := (applyUpdate u old).id, price := p',
                   pricePerM2 := pricePerM2Of (some p')
                     (applyUpdate u old).sizeM2,
                   recordedAt := db.now }) := by
        simp only [track_price_change, hcase, if_neg heq]
      simp only [updateProperty, hold, htr] at h
      split at h
      · split at h
        · simp only [Except.ok.injEq] at h
          subst h
          constructor
          · intro habs
            exact absurd habs.symm heq
          · intro p hp hne2
            injection hp with hpp
            subst hpp
            rfl
        · exact absurd h fun hc => Except.noConfusion hc
      · split at h
        · simp only [Except.ok.injEq] at h
          subst h
          constructor
          · intro habs
            exact absurd habs.symm heq
          · intro p hp hne2
            injection hp with hpp
            subst hpp
            rfl
        · exact absurd h fun hc => Except.noConfusion hc

/-- Witness for C1 at a concrete store: setting price 100 to 150
appends exactly the one new history row. -/
theorem c1_price_update_appends_iff_changed_witness :
    getProperty exDbU 1 = some exRowU ∧
    updateProperty exDbU 1 exUSetPrice = Except.ok exDbURes ∧
    exDbURes.priceHistory = exDbU.priceHistory ++
      [{ id := 5, propertyId := 1, price := 150, pricePerM2 := none,
         recordedAt := 7 }] :=
  ⟨by decide, by decide,
   (c1_price_update_appends_iff_changed exDbU 1 exRowU exUSetPrice exDbURes
     (by decide) (by decide)).2 150 (by decide) (by decide)⟩

/-- Claim C9: updating a property whose price is known to a null price
makes the price-change trigger insert a null into the NOT NULL
`price_history.price` column, so the whole statement fails with a
not-null violation (and, the statement having failed, no table
changes). -/
theorem c9_null_price_update_rejected (db : DB) (pid : Nat)
    (old : PropertyRow) (u : PropertyUpdate) (p : ℚ)
    (hold : getProperty db pid = some old)
    (hp : old.price = some p)
    (hu : u.setPrice = some none) :
    updateProperty db pid u = Except.error DBError.notNullViolation := by
  simp only [getProperty] at hold
  have hnew : (applyUpdate u old).price = none := by
    simp only [applyUpdate, hu, Option.getD_some]
  have hne : ¬old.price = none := by
    rw [hp]
    exact fun hc => Option.noConfusion hc
  have htr : track_price_change db old (applyUpdate u old) =
      Except.error DBError.notNullViolation := by
    simp only [track_price_change, hnew, if_neg hne]
  simp only [updateProperty, hold, htr]

/-- Witness for C9 at a concrete store: nulling out price 100 is
rejected with a not-null violation. -/
theorem c9_null_price_update_rejected_witness :
    getProperty exDbU 1 = some exRowU ∧ exRowU.price = some 100 ∧
    exUNullPrice.setPrice = some none ∧
    updateProperty exDbU 1 exUNullPrice =
      Except.error DBError.notNullViolation :=
  ⟨by decide, by decide, by decide,
   c9_null_price_update_rejected exDbU 1 exRowU exUNullPrice 100
     (by decide) (by decide) (by decide)⟩

/-- Claim C10: the favorites client is idempotent at its interface —
`addFavorite` resolves on HTTP 409 and `removeFavorite` on HTTP 404,
and each resolves exactly on an ok (2xx) status or its special-cased
status, throwing on every other status. -/
theorem c10_favorites_idempotent (s : Nat) :
    addFavorite 409 = Except.ok () ∧
    removeFavorite 404 = Except.ok () ∧
    (addFavorite s = Except.ok () ↔ responseOk s = true ∨ s = 409) ∧
    (removeFavorite s = Except.ok () ↔ responseOk s = true ∨ s = 404) := by
  refine ⟨by decide, by decide, ?_, ?_⟩
  · by_cases hok : responseOk s = true
    · simp [addFavorite, hok]
    · by_cases h9 : s = 409
      · simp [addFavorite, h9]
      · simp [addFavorite, hok, h9]
  · by_cases hok : responseOk s = true
    · simp [removeFavorite, hok]
    · by_cases h4 : s = 404
      · simp [removeFavorite, h4]
      · simp [removeFavorite, hok, h4]

/-- Witness for C10 at concrete statuses: 409/404 resolve for their
function, while 500 — and the other function's special status — throw. -/
theorem c10_favorites_idempotent_witness :
    addFavorite 409 = Except.ok () ∧
    removeFavorite 404 = Except.ok () ∧
    addFavorite 500 ≠ Except.ok () ∧
    removeFavorite 500 ≠ Except.ok () ∧
    addFavorite 404 ≠ Except.ok () ∧
    removeFavorite 409 ≠ Except.ok () :=
  ⟨(c10_favorites_idempotent 0).1,
   (c10_favorites_idempotent 0).2.1,
   fun hc => absurd ((c10_favorites_idempotent 500).2.2.1.mp hc) (by decide),
   fun hc => absurd ((c10_favorites_idempotent 500).2.2.2.mp hc) (by decide),
   fun hc => absurd ((c10_favorites_idempotent 404).2.2.1.mp hc) (by decide),
   fun hc => absurd ((c10_favorites_idempotent 409).2.2.2.mp hc) (by decide)⟩

/-- Claim C7 (the aggregator is modelled from the spec, see `medianQ`):
for a non-empty sample, the computed median is the exact median of the
sorted sample — the middle element for odd size, the average of the
two middle elements for even size, stated against any sorted
rearrangement of the sample. -/
theorem c7_median_exact (l s : List ℚ) (hne : l ≠ [])
    (hperm : l.Perm s) (hsort : List.Sorted (· ≤ ·) s) :
    medianQ l =
      if l.length % 2 = 1 then some (s.getD (l.length / 2) 0)
      else some ((s.getD (l.length / 2 - 1) 0 + s.getD (l.length / 2) 0) / 2) := by
  have hs : List.insertionSort (· ≤ ·) l = s :=
    List.eq_of_perm_of_sorted ((List.perm_insertionSort _ l).trans hperm)
      (List.sorted_insertionSort _ l) hsort
  cases l with
  | nil => exact absurd rfl hne
  | cons x xs => simp only [medianQ, hs]

/-- Witness for C7 at the spec's own samples: `[10,20,30] → 20`,
`[10,20,30,40] → 25`, and an unsorted sample `[30,10,20] → 20`. -/
theorem c7_median_exact_witness :
    medianQ [10, 20, 30] = some 20 ∧
    medianQ [10, 20, 30, 40] = some 25 ∧
    medianQ [30, 10, 20] = some 20 := by
  have h1 := c7_median_exact [10, 20, 30] [10, 20, 30] (by decide)
    (List.Perm.refl _) (by decide)
  have h2 := c7_median_exact [10, 20, 30, 40] [10, 20, 30, 40] (by decide)
    (List.Perm.refl _) (by decide)
  have h3 := c7_median_exact [30, 10, 20] [10, 20, 30] (by decide)
    (by decide) (by decide)
  norm_num at h1 h2 h3
  exact ⟨h1, h2, h3⟩

/-- The triggers' `CASE` expression agrees with the spec's wording of
the price-per-m² formula whenever the inserted price is non-null. -/
theorem pricePerM2Of_eq_spec (p : ℚ) (sz : Option ℚ) :
    pricePerM2Of (some p) sz = pricePerM2Spec p sz := by
  cases sz <;> rfl

/-- Claim C2: every price-history row a trigger creates carries
price_per_m2 equal to round(price / size_m2, 2) — exact rational
division, rounded half away from zero to 2 decimals — of its own price
and its property's size_m2 when that is positive, and null otherwise. -/

theorem c2_price_per_m2_formula (db db' : DB) (r : PriceHistoryRow) :
    (∀ np : NewProperty, insertProperty db np = Except.ok db' →
      r ∈ db'.priceHistory → r ∉ db.priceHistory →
      ∃ pr ∈ db'.properties, pr.id = r.propertyId ∧
        pr.price = some r.price ∧
        r.pricePerM2 = pricePerM2Spec r.price pr.sizeM2) ∧
    (∀ (pid : Nat) (u : PropertyUpdate),
      updateProperty db pid u = Except.ok db' →
      r ∈ db'.priceHistory → r ∉ db.priceHistory →
      ∃ pr ∈ db'.properties, pr.id = r.propertyId ∧
        pr.price = some r.price ∧
        r.pricePerM2 = pricePerM2Spec r.price pr.sizeM2) := by
  constructor
  · intro np hins hmem hnot
    simp only [insertProperty] at hins
    split at hins
    · exact absurd hins fun hc => Except.noConfusion hc
    · split at hins
      · exact absurd hins fun hc => Except.noConfusion hc
      · split at hins
        case isFalse => exact absurd hins fun hc => Except.noConfusion hc
        case isTrue hfk =>
          split at hins
          case h_1 hnone =>
            simp only [Except.ok.injEq] at hins
            subst hins
            exact absurd hmem hnot
          case h_2 hrow hsome =>
            simp only [Except.ok.injEq] at hins
            subst hins
            have hr : r = hrow := by
              rcases List.mem_append.mp hmem with hin | hin
              · exact absurd hin hnot
              · simpa using hin
            subst hr
            simp only [record_initial_price] at hsome
            split at hsome
            case h_1 => exact Option.noConfusion hsome
            case h_2 p hp =>
              simp only [Option.some.injEq] at hsome
              subst hsome
              refine ⟨properties_search_vector_update (np.toRow db.now),
                List.mem_append_right _ (List.mem_singleton_self _),
                rfl, hp, ?_⟩
              simp only [hp, pricePerM2Of_eq_spec]
  · intro pid u hupd hmem hnot
    cases hfind : db.properties.find? (fun rr => rr.id == pid) with
    | none =>
      simp only [updateProperty, hfind] at hupd
      simp only [Except.ok.injEq] at hupd
      subst hupd
      exact absurd hmem hnot
    | some old =>
      have hold_mem : old ∈ db.properties := List.mem_of_find?_eq_some hfind
      have holdid : (old.id == pid) = true := by
        simpa using List.find?_some hfind
      by_cases heq : old.price = (applyUpdate u old).price
      · have htr : track_price_change db old (applyUpdate u old) =
            Except.ok (applyUpdate u old, none) := by
          simp only [track_price_change, if_pos heq]
        simp only [updateProperty, hfind, htr] at hupd
        split at hupd
        all_goals split at hupd
        all_goals try exact absurd hupd fun hc => Except.noConfusion hc
        all_goals simp only [Except.ok.injEq] at hupd
        all_goals subst hupd
        all_goals exact absurd hmem hnot
      · cases hcase : (applyUpdate u old).price with
        | none =>
          rw [hcase] at heq
          have htr : track_price_change db old (applyUpdate u old) =
              Except.error DBError.notNullViolation := by
            simp only [track_price_change, hcase, if_neg heq]
          simp only [updateProperty, hfind, htr] at hupd
          exact absurd hupd fun hc => Except.noConfusion hc
        | some p' =>
          rw [hcase] at heq
          have htr : track_price_change db old (applyUpdate u old) =
              Except.ok ({ applyUpdate u old with updatedAt := db.now },
                some { id := db.nextHistoryId,
                       propertyId := (applyUpdate u old).id, price := p',
                       pricePerM2 := pricePerM2Of (some p')
                         (applyUpdate u old).sizeM2,
                       recordedAt := db.now }) := by
            simp only [track_price_change, hcase, if_neg heq]
          simp only [updateProperty, hfind, htr] at hupd
          split at hupd
          · split at hupd
            · simp only [Except.ok.injEq] at hupd
              subst hupd
              have hr : r =
                  { id := db.nextHistoryId,
                    propertyId := (applyUpdate u old).id, price := p',
                    pricePerM2 := pricePerM2Of (some p')
                      (applyUpdate u old).sizeM2,
                    recordedAt := db.now } := by
                rcases List.mem_append.mp hmem with hin | hin
                · exact absurd hin hnot
                · simpa using hin
              subst hr
              refine ⟨_, List.mem_map_of_mem _ hold_mem, ?_, ?_, ?_⟩
              · simp only [holdid, eq_self_iff_true, if_true]
                rfl
              · simp only [holdid, eq_self_iff_true, if_true,
                  update_updated_at, properties_search_vector_update]
                exact hcase
              · simp only [holdid, eq_self_iff_true, if_true,
                  update_updated_at, properties_search_vector_update]
                exact pricePerM2Of_eq_spec p' _
            · exact absurd hupd fun hc => Except.noConfusion hc
          · split at hupd
            · simp only [Except.ok.injEq] at hupd
              subst hupd
              have hr : r =
                  { id := db.nextHistoryId,
                    propertyId := (applyUpdate u old).id, price := p',
                    pricePerM2 := pricePerM2Of (some p')
                      (applyUpdate u old).sizeM2,
                    recordedAt := db.now } := by
                rcases List.mem_append.mp hmem with hin | hin
                · exact absurd hin hnot
                · simpa using hin
              subst hr
              refine ⟨_, List.mem_map_of_mem _ hold_mem, ?_, ?_, ?_⟩
              · simp only [holdid, eq_self_iff_true, if_true]
                rfl
              · simp only [holdid, eq_self_iff_true, if_true,
                  update_updated_at, properties_search_vector_update]
                exact hcase
              · simp only [holdid, eq_self_iff_true, if_true,
                  update_updated_at, properties_search_vector_update]
                exact pricePerM2Of_eq_spec p' _
            · exact absurd hupd fun hc => Except.noConfusion hc

/-- Witness for C2 at the spec's example: inserting a 3,000,000 CZK,
60 m² listing records price_per_m2 = 50000. -/
theorem c2_price_per_m2_formula_witness :
    insertProperty exDb0 exNpFlat = Except.ok exDbFlat ∧
    exHistFlat ∈ exDbFlat.priceHistory ∧
    exHistFlat ∉ exDb0.priceHistory ∧
    (∃ pr ∈ exDbFlat.properties, pr.id = exHistFlat.propertyId ∧
      pr.price = some exHistFlat.price ∧
      exHistFlat.pricePerM2 = pricePerM2Spec exHistFlat.price pr.sizeM2) ∧
    exHistFlat.pricePerM2 = some 50000 := by
  have hins : insertProperty exDb0 exNpFlat = Except.ok exDbFlat := rfl
  have hmem : exHistFlat ∈ exDbFlat.priceHistory :=
    List.mem_singleton_self _
  have hnot : exHistFlat ∉ exDb0.priceHistory := by simp [exDb0]
  refine ⟨hins, hmem, hnot,
    (c2_price_per_m2_formula exDb0 exDbFlat exHistFlat).1 exNpFlat hins
      hmem hnot, ?_⟩
  norm_num [exHistFlat, pricePerM2Of, roundTo2, roundHalfAway]

/-- Claim C5: deleting a property removes exactly its own
price-history rows (cascade), nulls every `duplicate_of` that pointed
at it (set-null), and preserves referential integrity — no dangling
reference remains. -/
theorem c5_delete_cascades (db : DB) (pid : Nat) (hrow : PriceHistoryRow)
    (prow : PropertyRow) :
    (hrow ∈ (deleteProperty db pid).priceHistory → hrow.propertyId ≠ pid) ∧
    (hrow ∈ db.priceHistory → hrow.propertyId ≠ pid →
      hrow ∈ (deleteProperty db pid).priceHistory) ∧
    (prow ∈ (deleteProperty db pid).properties →
      prow.id ≠ pid ∧ prow.duplicateOf ≠ some pid) ∧
    (refIntegrity db → refIntegrity (deleteProperty db pid)) := by
  have hgid : ∀ r : PropertyRow,
      ((fun r => if r.duplicateOf = some pid then
          { r with duplicateOf := none, updatedAt := db.now }
        else r) r).id = r.id := by
    intro r
    by_cases hc : r.duplicateOf = some pid <;> simp [hc]
  refine ⟨?_, ?_, ?_, ?_⟩
  · intro hmem
    simp only [deleteProperty, List.mem_filter] at hmem
    exact of_decide_eq_true hmem.2
  · intro hmem hne
    simp only [deleteProperty, List.mem_filter]
    exact ⟨hmem, decide_eq_true hne⟩
  · intro hmem
    simp only [deleteProperty, List.mem_map] at hmem
    obtain ⟨r0, hr0, hpr⟩ := hmem
    rw [List.mem_filter] at hr0
    obtain ⟨hr0mem, hr0id⟩ := hr0
    by_cases hc : r0.duplicateOf = some pid
    · rw [if_pos hc] at hpr
      subst hpr
      refine ⟨of_decide_eq_true hr0id, ?_⟩
      simp
    · rw [if_neg hc] at hpr
      subst hpr
      exact ⟨of_decide_eq_true hr0id, hc⟩
  · rintro ⟨hhist, hdup⟩
    constructor
    · intro h hmem
      simp only [deleteProperty, List.mem_filter] at hmem
      obtain ⟨hmem0, hne⟩ := hmem
      obtain ⟨p, hp_mem, hp_id⟩ := hhist h hmem0
      refine ⟨_, List.mem_map_of_mem _ (List.mem_filter.mpr
        ⟨hp_mem, ?_⟩), ?_⟩
      · rw [hp_id]
        exact hne
      · rw [hgid p]
        exact hp_id
    · intro r' hmem
      simp only [deleteProperty, List.mem_map] at hmem
      obtain ⟨r0, hr0, hpr⟩ := hmem
      rw [List.mem_filter] at hr0
      obtain ⟨hr0mem, _⟩ := hr0
      by_cases hc : r0.duplicateOf = some pid
      · rw [if_pos hc] at hpr
        subst hpr
        rfl
      · rw [if_neg hc] at hpr
        subst hpr
        cases hdq : r0.duplicateOf with
        | none => rfl
        | some q =>
          have horig := hdup r0 hr0mem
          rw [hdq] at horig
          simp only [fkDupOk, List.any_eq_true, deleteProperty] at horig ⊢
          obtain ⟨p, hp_mem, hp_q⟩ := horig
          have hqid : p.id = q := by simpa using hp_q
          have hqne : q ≠ pid := fun hqq => hc (hdq.trans (by rw [hqq]))
          refine ⟨_, List.mem_map_of_mem _ (List.mem_filter.mpr
            ⟨hp_mem, decide_eq_true ?_⟩), ?_⟩
          · rw [hqid]
            exact hqne
          · rw [hgid p]
            exact hp_q

/-- Witness for C5 at a concrete store: deleting property 1 removes
its history row, keeps property 2's, and nulls property 2's
`duplicate_of`. -/
theorem c5_delete_cascades_witness :
    exHistB.propertyId ≠ 1 ∧
    exHistB ∈ (deleteProperty exDbDel 1).priceHistory ∧
    (exRowBAfter.id ≠ 1 ∧ exRowBAfter.duplicateOf ≠ some 1) ∧
    refIntegrity (deleteProperty exDbDel 1) :=
  ⟨(c5_delete_cascades exDbDel 1 exHistB exRowBAfter).1 (by decide),
   (c5_delete_cascades exDbDel 1 exHistB exRowBAfter).2.1 (by decide)
     (by decide),
   (c5_delete_cascades exDbDel 1 exHistB exRowBAfter).2.2.1 (by decide),
   (c5_delete_cascades exDbDel 1 exHistB exRowBAfter).2.2.2 (by decide)⟩

/-- Pointwise key preservation carries the pair-uniqueness invariant
through a row transformation. -/
theorem pairwise_key_map (l : List PropertyRow) (f : PropertyRow → PropertyRow)
    (hkey : ∀ x ∈ l, (f x).source = x.source ∧ (f x).externalId = x.externalId)
    (hp : l.Pairwise fun a b =>
      a.source ≠ b.source ∨ a.externalId ≠ b.externalId) :
    (l.map f).Pairwise fun a b =>
      a.source ≠ b.source ∨ a.externalId ≠ b.externalId := by
  rw [List.pairwise_map]
  refine hp.imp_of_mem ?_
  intro a b ha hb hab
  obtain ⟨hsa, hea⟩ := hkey a ha
  obtain ⟨hsb, heb⟩ := hkey b hb
  rw [hsa, hea, hsb, heb]
  exact hab

/-- In a table with pairwise-distinct ids, a member whose id matches a
`find?` hit on the id is that hit. -/
theorem eq_of_id_eq_of_idsUnique (db : DB) (hids : idsUnique db)
    (a old : PropertyRow) (ha : a ∈ db.properties)
    (hold : old ∈ db.properties) (hid : a.id = old.id) : a = old := by
  by_cases hao : a = old
  · exact hao
  · have hsym : Symmetric fun x y : PropertyRow => x.id ≠ y.id :=
      fun x y h hc => h hc.symm
    exact absurd hid (hids.forall hsym ha hold hao)

/-- Claim C3: the `uq_source_external` constraint makes
(source, external_id) identify one property — an insert that repeats
an existing pair is rejected by the store itself with a unique
violation, and every modelled operation preserves pairwise
distinctness of the pairs. -/
theorem c3_unique_source_external (db : DB) (np : NewProperty) (pid : Nat)
    (u : PropertyUpdate) (db' : DB) :
    ((∃ r ∈ db.properties, r.source = np.source ∧
        r.externalId = np.externalId) →
      insertProperty db np = Except.error DBError.uniqueViolation) ∧
    (insertProperty db np = Except.ok db' →
      uniquePairs db → uniquePairs db') ∧
    (updateProperty db pid u = Except.ok db' →
      idsUnique db → uniquePairs db → uniquePairs db') ∧
    (uniquePairs db → uniquePairs (deleteProperty db pid)) := by
  refine ⟨?_, ?_, ?_, ?_⟩
  · rintro ⟨r, hr, hs, he⟩
    have hcond : (db.properties.any fun r =>
        r.source == np.source && r.externalId == np.externalId) = true :=
      List.any_eq_true.mpr ⟨r, hr, by simp [hs, he]⟩
    simp [insertProperty, hcond]
  · intro hins hu
    simp only [insertProperty] at hins
    split at hins
    · exact absurd hins fun hc => Except.noConfusion hc
    case isFalse hany =>
      split at hins
      · exact absurd hins fun hc => Except.noConfusion hc
      · split at hins
        case isFalse => exact absurd hins fun hc => Except.noConfusion hc
        case isTrue hfk =>
          have hnew : ∀ a ∈ db.properties,
              a.source ≠ np.source ∨ a.externalId ≠ np.externalId := by
            intro a ha
            by_cases hsrc : a.source = np.source
            · refine Or.inr fun hext => hany ?_
              exact List.any_eq_true.mpr ⟨a, ha, by simp [hsrc, hext]⟩
            · exact Or.inl hsrc
          have hpair : uniquePairs
              { db with properties := db.properties ++
                  [properties_search_vector_update (np.toRow db.now)] } := by
            unfold uniquePairs
            rw [List.pairwise_append]
            refine ⟨hu, by simp, ?_⟩
            intro a ha b hb
            simp only [List.mem_singleton] at hb
            subst hb
            exact hnew a ha
          split at hins
          all_goals simp only [Except.ok.injEq] at hins
          all_goals subst hins
          · exact hpair
          · exact hpair
  · intro hupd hids hu
    cases hfind : db.properties.find? (fun rr => rr.id == pid) with
    | none =>
      simp only [updateProperty, hfind] at hupd
      simp only [Except.ok.injEq] at hupd
      subst hupd
      exact hu
    | some old =>
      have hold_mem : old ∈ db.properties := List.mem_of_find?_eq_some hfind
      have holdid : (old.id == pid) = true := by
        simpa using List.find?_some hfind
      have hkey : ∀ (new3 : PropertyRow), new3.source = old.source →
          new3.externalId = old.externalId →
          ∀ x ∈ db.properties,
            ((if (x.id == pid) = true then new3 else x).source = x.source ∧
             (if (x.id == pid) = true then new3 else x).externalId =
               x.externalId) := by
        intro new3 hns hne x hx
        by_cases hxp : (x.id == pid) = true
        · have hxid : x.id = old.id := by
            have h1 : x.id = pid := by simpa using hxp
            have h2 : old.id = pid := by simpa using holdid
            rw [h1, h2]
          have hxold : x = old :=
            eq_of_id_eq_of_idsUnique db hids x old hx hold_mem hxid
          subst hxold
          rw [if_pos hxp, hns, hne]
          exact ⟨rfl, rfl⟩
        · rw [if_neg hxp]
          exact ⟨rfl, rfl⟩
      by_cases heq : old.price = (applyUpdate u old).price
      · have htr : track_price_change db old (applyUpdate u old) =
            Except.ok (applyUpdate u old, none) := by
          simp only [track_price_change, if_pos heq]
        simp only [updateProperty, hfind, htr] at hupd
        split at hupd
        all_goals split at hupd
        all_goals try exact absurd hupd fun hc => Except.noConfusion hc
        all_goals simp only [Except.ok.injEq] at hupd
        all_goals subst hupd
        all_goals exact pairwise_key_map _ _ (hkey _ rfl rfl) hu
      · cases hcase : (applyUpdate u old).price with
        | none =>
          rw [hcase] at heq
          have htr : track_price_change db old (applyUpdate u old) =
              Except.error DBError.notNullViolation := by
            simp only [track_price_change, hcase, if_neg heq]
          simp only [updateProperty, hfind, htr] at hupd
          exact absurd hupd fun hc => Except.noConfusion hc
        | some p' =>
          rw [hcase] at heq
          have htr : track_price_change db old (applyUpdate u old) =
              Except.ok ({ applyUpdate u old with updatedAt := db.now },
                some { id := db.nextHistoryId,
                       propertyId := (applyUpdate u old).id, price := p',
                       pricePerM2 := pricePerM2Of (some p')
                         (applyUpdate u old).sizeM2,
                       recordedAt := db.now }) := by
            simp only [track_price_change, hcase, if_neg heq]
          simp only [updateProperty, hfind, htr] at hupd
          split at hupd
          all_goals split at hupd
          all_goals try exact absurd hupd fun hc => Except.noConfusion hc
          all_goals simp only [Except.ok.injEq] at hupd
          all_goals subst hupd
          all_goals exact pairwise_key_map _ _ (hkey _ rfl rfl) hu
  · intro hu
    unfold uniquePairs deleteProperty
    refine pairwise_key_map _ _ ?_ ((List.Pairwise.filter _) hu)
    intro x hx
    by_cases hc : x.duplicateOf = some pid
    · rw [if_pos hc]
      exact ⟨rfl, rfl⟩
    · rw [if_neg hc]
      exact ⟨rfl, rfl⟩

/-- Witness for C3 at a concrete store: re-inserting (sreality, u1) is
rejected, and pair uniqueness survives a concrete update and a
concrete delete. -/
theorem c3_unique_source_external_witness :
    insertProperty exDbU exNpDupPair =
      Except.error DBError.uniqueViolation ∧
    uniquePairs exDbURes ∧
    uniquePairs (deleteProperty exDbU 1) :=
  ⟨(c3_unique_source_external exDbU exNpDupPair 0 exUNoop exDbU).1
     (by decide),
   (c3_unique_source_external exDbU exNpDupPair 1 exUSetPrice exDbURes).2.2.1
     (by decide) (by decide) (by decide),
   (c3_unique_source_external exDbU exNpDupPair 1 exUNoop exDbU).2.2.2
     (by decide)⟩

/-- Claim C6: the search vector weights title and city at A (the
highest rank), district and address at B, description at C (the
lowest), over `simple` non-stemmed tokenization; it is recomputed on
every insert and on every update whose SET list touches one of those
five columns, always from the stored row's own fields. -/
theorem c6_search_vector_weights (r : PropertyRow) (t : String) (db : DB)
    (np : NewProperty) (pid : Nat) (u : PropertyUpdate) (db' : DB) :
    ((t, Weight.A) ∈ (properties_search_vector_update r).searchVector ↔
      t ∈ toTsvectorSimple r.title ∨ t ∈ toTsvectorSimple r.city) ∧
    ((t, Weight.B) ∈ (properties_search_vector_update r).searchVector ↔
      t ∈ toTsvectorSimple r.district ∨ t ∈ toTsvectorSimple r.address) ∧
    ((t, Weight.C) ∈ (properties_search_vector_update r).searchVector ↔
      t ∈ toTsvectorSimple r.description) ∧
    (Weight.B.rank < Weight.A.rank ∧ Weight.C.rank < Weight.B.rank) ∧
    (insertProperty db np = Except.ok db' →
      ∀ p ∈ db'.properties, p ∉ db.properties →
        p.searchVector = (properties_search_vector_update p).searchVector) ∧
    (updateProperty db pid u = Except.ok db' →
      touchesSearchCols u = true →
      ∀ p ∈ db'.properties, p ∉ db.properties →
        p.searchVector = (properties_search_vector_update p).searchVector) := by
  refine ⟨?_, ?_, ?_, ⟨by decide, by decide⟩, ?_, ?_⟩
  · simp [properties_search_vector_update, setweight]
  · simp [properties_search_vector_update, setweight]
  · simp [properties_search_vector_update, setweight]
  · intro hins p hp hnp
    simp only [insertProperty] at hins
    split at hins
    · exact absurd hins fun hc => Except.noConfusion hc
    · split at hins
      · exact absurd hins fun hc => Except.noConfusion hc
      · split at hins
        case isFalse => exact absurd hins fun hc => Except.noConfusion hc
        case isTrue hfk =>
          split at hins
          all_goals simp only [Except.ok.injEq] at hins
          all_goals subst hins
          all_goals
            rcases List.mem_append.mp hp with hin | hin
          case h_1.inl => exact absurd hin hnp
          case h_1.inr =>
            rw [List.mem_singleton] at hin
            subst hin
            rfl
          case h_2.inl => exact absurd hin hnp
          case h_2.inr =>
            rw [List.mem_singleton] at hin
            subst hin
            rfl
  · intro hupd htouch p hp hnp
    cases hfind : db.properties.find? (fun rr => rr.id == pid) with
    | none =>
      simp only [updateProperty, hfind] at hupd
      simp only [Except.ok.injEq] at hupd
      subst hupd
      exact absurd hp hnp
    | some old =>
      cases htr : track_price_change db old (applyUpdate u old) with
      | error e =>
        simp only [updateProperty, hfind, htr] at hupd
        exact absurd hupd fun hc => Except.noConfusion hc
      | ok res =>
        obtain ⟨new1, hist?⟩ := res
        simp only [updateProperty, hfind, htr] at hupd
        split at hupd
        case isFalse hns => exact absurd htouch hns
        case isTrue =>
          split at hupd
          case isFalse => exact absurd hupd fun hc => Except.noConfusion hc
          case isTrue hfk =>
            split at hupd
            all_goals simp only [Except.ok.injEq] at hupd
            all_goals subst hupd
            all_goals rw [List.mem_map] at hp
            all_goals obtain ⟨r0, hr0, hfr⟩ := hp
            all_goals by_cases hr0p : (r0.id == pid) = true
            all_goals first
              | (rw [if_pos hr0p] at hfr
                 subst hfr
                 rfl)
              | (rw [if_neg hr0p] at hfr
                 subst hfr
                 exact absurd hr0 hnp)

/-- Witness for C6 at concrete rows: each weight class contains
exactly its fields' tokens, and a concrete title update recomputes the
stored vector. -/
theorem c6_search_vector_weights_witness :
    ("byt", Weight.A) ∈
      (properties_search_vector_update exRowSearch).searchVector ∧
    ("karlin", Weight.B) ∈
      (properties_search_vector_update exRowSearch).searchVector ∧
    ("pekny", Weight.C) ∈
      (properties_search_vector_update exRowSearch).searchVector ∧
    updateProperty exDbU 1 exUSetTitle = Except.ok exDbUTitleRes ∧
    exRowTitled.searchVector =
      (properties_search_vector_update exRowTitled).searchVector :=
  ⟨(c6_search_vector_weights exRowSearch "byt" exDb0 exNpNoPrice 0
      exUNoop exDb0).1.mpr (Or.inl (by decide)),
   (c6_search_vector_weights exRowSearch "karlin" exDb0 exNpNoPrice 0
      exUNoop exDb0).2.1.mpr (Or.inl (by decide)),
   (c6_search_vector_weights exRowSearch "pekny" exDb0 exNpNoPrice 0
      exUNoop exDb0).2.2.1.mpr (by decide),
   by decide,
   (c6_search_vector_weights exRowSearch "byt" exDbU exNpNoPrice 1
      exUSetTitle exDbUTitleRes).2.2.2.2.2 (by decide) (by decide)
     exRowTitled (by decide) (by decide)⟩

theorem go_succ_none (db : DB) (fuel p : Nat)
    (hg : getProperty db p = none) :
    resolveRoot.go db (fuel + 1) p = p := by
  rw [resolveRoot.go, hg]

theorem go_succ_stop (db : DB) (fuel p : Nat) (r : PropertyRow)
    (hg : getProperty db p = some r) (hd : r.duplicateOf = none) :
    resolveRoot.go db (fuel + 1) p = p := by
  rw [resolveRoot.go, hg]
  show (match r.duplicateOf with
        | none => p
        | some q => resolveRoot.go db fuel q) = p
  rw [hd]

theorem go_succ_step (db : DB) (fuel p : Nat) (r : PropertyRow) (q : Nat)
    (hg : getProperty db p = some r) (hd : r.duplicateOf = some q) :
    resolveRoot.go db (fuel + 1) p = resolveRoot.go db fuel q := by
  rw [resolveRoot.go, hg]
  show (match r.duplicateOf with
        | none => p
        | some q => resolveRoot.go db fuel q) = resolveRoot.go db fuel q
  rw [hd]

/-- Two distinct members force a list length of at least two. -/
theorem two_mem_le_length {α : Type} {a b : α} {l : List α}
    (ha : a ∈ l) (hb : b ∈ l) (hab : a ≠ b) : 2 ≤ l.length := by
  match l with
  | [] => exact absurd ha (List.not_mem_nil a)
  | [x] =>
    rw [List.mem_singleton] at ha hb
    exact absurd (ha.trans hb.symm) hab
  | x :: y :: t => simp [Nat.le_add_left]

/-- The fuel-bounded chase never lands on an id no pointer targets. -/
theorem resolveRoot_go_ne (db : DB) (newId : Nat)
    (hnoin : ∀ r ∈ db.properties, r.duplicateOf ≠ some newId) :
    ∀ fuel p, p ≠ newId → resolveRoot.go db fuel p ≠ newId := by
  intro fuel
  induction fuel with
  | zero => intro p hp; exact hp
  | succ n ih =>
    intro p hp
    cases hg : getProperty db p with
    | none => rw [go_succ_none db n p hg]; exact hp
    | some r =>
      cases hd : r.duplicateOf with
      | none => rw [go_succ_stop db n p r hg hd]; exact hp
      | some q =>
        rw [go_succ_step db n p r q hg hd]
        refine ih q fun hqn => ?_
        have hrmem : r ∈ db.properties := List.mem_of_find?_eq_some hg
        exact hnoin r hrmem (hd.trans (by rw [hqn]))

/-- Under the no-chain invariant and unique ids, whatever row the
chase's result id names has a null `duplicate_of`. -/
theorem resolveRoot_dupOf_none (db : DB) (candId : Nat)
    (hnc : noChains db) (hids : idsUnique db) :
    ∀ p ∈ db.properties, p.id = resolveRoot db candId →
      p.duplicateOf = none := by
  intro p hp hpid
  unfold resolveRoot at hpid
  cases hn : db.properties.length with
  | zero =>
    rw [List.length_eq_zero] at hn
    rw [hn] at hp
    exact absurd hp (List.not_mem_nil p)
  | succ m =>
    rw [hn] at hpid
    cases hg : getProperty db candId with
    | none =>
      rw [go_succ_none db m candId hg] at hpid
      have := List.find?_eq_none.mp hg p hp
      rw [hpid] at this
      simp at this
    | some cand =>
      have hcmem : cand ∈ db.properties := List.mem_of_find?_eq_some hg
      have hcid : cand.id = candId := by simpa using List.find?_some hg
      cases hd : cand.duplicateOf with
      | none =>
        rw [go_succ_stop db m candId cand hg hd] at hpid
        have hpc : p = cand :=
          eq_of_id_eq_of_idsUnique db hids p cand hp hcmem
            (by rw [hpid, hcid])
        rw [hpc, hd]
      | some q =>
        rw [go_succ_step db m candId cand q hg hd] at hpid
        cases hgq : getProperty db q with
        | none =>
          have hroot : resolveRoot.go db m q = q := by
            cases m with
            | zero => rfl
            | succ m2 => rw [go_succ_none db m2 q hgq]
          rw [hroot] at hpid
          have := List.find?_eq_none.mp hgq p hp
          rw [hpid] at this
          simp at this
        | some rq =>
          have hrqmem : rq ∈ db.properties := List.mem_of_find?_eq_some hgq
          have hrqid : rq.id = q := by simpa using List.find?_some hgq
          have hrqnone : rq.duplicateOf = none :=
            hnc cand hcmem rq hrqmem (hd.trans (by rw [hrqid]))
          have hcrq : cand ≠ rq := by
            intro hcc
            rw [hcc, hrqnone] at hd
            exact Option.noConfusion hd
          have hm2 : 2 ≤ db.properties.length :=
            two_mem_le_length hcmem hrqmem hcrq
          rw [hn] at hm2
          cases m with
          | zero => omega
          | succ m2 =>
            rw [go_succ_stop db m2 q rq hgq hrqnone] at hpid
            have hpq : p = rq :=
              eq_of_id_eq_of_idsUnique db hids p rq hp hrqmem
                (by rw [hpid, hrqid])
            rw [hpq, hrqnone]

/-- Deletion (with its set-null fixup) preserves the no-chain
invariant. -/
theorem delete_noChains (db : DB) (pid : Nat) (hnc : noChains db) :
    noChains (deleteProperty db pid) := by
  intro a ha b hb hab
  simp only [deleteProperty, List.mem_map] at ha hb
  obtain ⟨a0, ha0, hfa⟩ := ha
  obtain ⟨b0, hb0, hfb⟩ := hb
  rw [List.mem_filter] at ha0 hb0
  by_cases hcb : b0.duplicateOf = some pid
  · rw [if_pos hcb] at hfb
    subst hfb
    rfl
  · rw [if_neg hcb] at hfb
    subst hfb
    by_cases hca : a0.duplicateOf = some pid
    · rw [if_pos hca] at hfa
      subst hfa
      simp at hab
    · rw [if_neg hca] at hfa
      subst hfa
      exact hnc a0 ha0.1 b0 hb0.1 hab

/-- Inserting a listing whose `duplicate_of` is null preserves the
no-chain invariant. -/
theorem insert_noChains (db db' : DB) (np : NewProperty)
    (hins : insertProperty db np = Except.ok db')
    (hnone : np.duplicateOf = none) (hnc : noChains db) :
    noChains db' := by
  simp only [insertProperty] at hins
  split at hins
  · exact absurd hins fun hc => Except.noConfusion hc
  · split at hins
    · exact absurd hins fun hc => Except.noConfusion hc
    · split at hins
      case isFalse => exact absurd hins fun hc => Except.noConfusion hc
      case isTrue hfk =>
        have hrowdup :
            (properties_search_vector_update (np.toRow db.now)).duplicateOf =
              none := hnone
        split at hins
        all_goals simp only [Except.ok.injEq] at hins
        all_goals subst hins
        all_goals intro a ha b hb hab
        all_goals rcases List.mem_append.mp hb with hbin | hbin
        · rcases List.mem_append.mp ha with hain | hain
          · exact hnc a hain b hbin hab
          · rw [List.mem_singleton] at hain
            subst hain
            rw [hrowdup] at hab
            exact Option.noConfusion hab
        · rw [List.mem_singleton] at hbin
          subst hbin
          exact hrowdup
        · rcases List.mem_append.mp ha with hain | hain
          · exact hnc a hain b hbin hab
          · rw [List.mem_singleton] at hain
            subst hain
            rw [hrowdup] at hab
            exact Option.noConfusion hab
        · rw [List.mem_singleton] at hbin
          subst hbin
          exact hrowdup

/-- A successful update replaces the matched row with a single new row
that keeps its id and carries the SET list's `duplicate_of`, leaving
every other row alone. -/
theorem updateProperty_ok_shape (db : DB) (pid : Nat) (u : PropertyUpdate)
    (db' : DB) (old : PropertyRow)
    (hfind : db.properties.find? (fun rr => rr.id == pid) = some old)
    (hupd : updateProperty db pid u = Except.ok db') :
    ∃ new3 : PropertyRow,
      db'.properties = db.properties.map
        (fun r => if (r.id == pid) = true then new3 else r) ∧
      new3.id = old.id ∧
      new3.duplicateOf = (applyUpdate u old).duplicateOf := by
  by_cases heq : old.price = (applyUpdate u old).price
  · have htr : track_price_change db old (applyUpdate u old) =
        Except.ok (applyUpdate u old, none) := by
      simp only [track_price_change, if_pos heq]
    simp only [updateProperty, hfind, htr] at hupd
    split at hupd
    all_goals split at hupd
    all_goals try exact absurd hupd fun hc => Except.noConfusion hc
    all_goals simp only [Except.ok.injEq] at hupd
    all_goals subst hupd
    all_goals exact ⟨_, rfl, rfl, rfl⟩
  · cases hcase : (applyUpdate u old).price with
    | none =>
      rw [hcase] at heq
      have htr : track_price_change db old (applyUpdate u old) =
          Except.error DBError.notNullViolation := by
        simp only [track_price_change, hcase, if_neg heq]
      simp only [updateProperty, hfind, htr] at hupd
      exact absurd hupd fun hc => Except.noConfusion hc
    | some p' =>
      rw [hcase] at heq
      have htr : track_price_change db old (applyUpdate u old) =
          Except.ok ({ applyUpdate u old with updatedAt := db.now },
            some { id := db.nextHistoryId,
                   propertyId := (applyUpdate u old).id, price := p',
                   pricePerM2 := pricePerM2Of (some p')
                     (applyUpdate u old).sizeM2,
                   recordedAt := db.now }) := by
        simp only [track_price_change, hcase, if_neg heq]
      simp only [updateProperty, hfind, htr] at hupd
      split at hupd
      all_goals split at hupd
      all_goals try exact absurd hupd fun hc => Except.noConfusion hc
      all_goals simp only [Except.ok.injEq] at hupd
      all_goals subst hupd
      all_goals exact ⟨_, rfl, rfl, rfl⟩

/-- An update whose SET list does not mention `duplicate_of` preserves
the no-chain invariant. -/
theorem update_noChains (db db' : DB) (pid : Nat) (u : PropertyUpdate)
    (hupd : updateProperty db pid u = Except.ok db')
    (hdup : u.setDuplicateOf = none) (hnc : noChains db) :
    noChains db' := by
  cases hfind : db.properties.find? (fun rr => rr.id == pid) with
  | none =>
    simp only [updateProperty, hfind] at hupd
    simp only [Except.ok.injEq] at hupd
    subst hupd
    exact hnc
  | some old =>
    have hold_mem : old ∈ db.properties := List.mem_of_find?_eq_some hfind
    obtain ⟨new3, hprops, hnid, hndup⟩ :=
      updateProperty_ok_shape db pid u db' old hfind hupd
    have hdup3 : new3.duplicateOf = old.duplicateOf := by
      rw [hndup]
      simp [applyUpdate, hdup]
    intro a ha b hb hab
    rw [hprops, List.mem_map] at ha hb
    obtain ⟨a0, ha0, hfa⟩ := ha
    obtain ⟨b0, hb0, hfb⟩ := hb
    by_cases hbp : (b0.id == pid) = true
    · rw [if_pos hbp] at hfb
      subst hfb
      rw [hnid] at hab
      rw [hdup3]
      by_cases hap : (a0.id == pid) = true
      · rw [if_pos hap] at hfa
        subst hfa
        rw [hdup3] at hab
        exact hnc old hold_mem old hold_mem hab
      · rw [if_neg hap] at hfa
        subst hfa
        exact hnc a0 ha0 old hold_mem hab
    · rw [if_neg hbp] at hfb
      subst hfb
      by_cases hap : (a0.id == pid) = true
      · rw [if_pos hap] at hfa
        subst hfa
        rw [hdup3] at hab
        exact hnc old hold_mem b0 hb0 hab
      · rw [if_neg hap] at hfa
        subst hfa
        exact hnc a0 ha0 b0 hb0 hab

/-- The duplicate-marking step — assigning the root of the candidate's
chain to a freshly created row nothing points at — preserves the
no-chain invariant. -/
theorem markDuplicate_noChains (db db' : DB) (newId candId : Nat)
    (hupd : markDuplicate db newId candId = Except.ok db')
    (hnc : noChains db) (hids : idsUnique db) (hne : candId ≠ newId)
    (hnoin : ∀ r ∈ db.properties, r.duplicateOf ≠ some newId) :
    noChains db' := by
  have hro : resolveRoot db candId ≠ newId := by
    unfold resolveRoot
    exact resolveRoot_go_ne db newId hnoin db.properties.length candId hne
  rw [markDuplicate] at hupd
  cases hfind : db.properties.find? (fun rr => rr.id == newId) with
  | none =>
    simp only [updateProperty, hfind] at hupd
    simp only [Except.ok.injEq] at hupd
    subst hupd
    exact hnc
  | some old =>
    have hold_mem : old ∈ db.properties := List.mem_of_find?_eq_some hfind
    have holdid : old.id = newId := by simpa using List.find?_some hfind
    obtain ⟨new3, hprops, hnid, hndup⟩ :=
      updateProperty_ok_shape db newId _ db' old hfind hupd
    have hdup3 : new3.duplicateOf = some (resolveRoot db candId) := by
      rw [hndup]
      rfl
    intro a ha b hb hab
    rw [hprops, List.mem_map] at ha hb
    obtain ⟨a0, ha0, hfa⟩ := ha
    obtain ⟨b0, hb0, hfb⟩ := hb
    by_cases hbp : (b0.id == newId) = true
    · rw [if_pos hbp] at hfb
      subst hfb
      rw [hnid, holdid] at hab
      by_cases hap : (a0.id == newId) = true
      · rw [if_pos hap] at hfa
        subst hfa
        rw [hdup3] at hab
        simp only [Option.some.injEq] at hab
        exact absurd hab hro
      · rw [if_neg hap] at hfa
        subst hfa
        exact absurd hab (hnoin a0 ha0)
    · rw [if_neg hbp] at hfb
      subst hfb
      by_cases hap : (a0.id == newId) = true
      · rw [if_pos hap] at hfa
        subst hfa
        rw [hdup3] at hab
        simp only [Option.some.injEq] at hab
        exact resolveRoot_dupOf_none db candId hnc hids b0 hb0 hab.symm
      · rw [if_neg hap] at hfa
        subst hfa
        exact hnc a0 ha0 b0 hb0 hab

/-- Claim C4 (the Deduplication Resolver is modelled from the spec,
see `resolveRoot` and `markDuplicate`): every `duplicate_of` chase
terminates after at most one hop — `noChains` — and each operation
that assigns `duplicate_of` preserves this: marking a fresh record
with the candidate's root, deletion's set-null, inserts with a null
`duplicate_of`, and updates not touching `duplicate_of`. -/
theorem c4_duplicate_of_one_hop (db db' : DB) (newId candId pid : Nat)
    (np : NewProperty) (u : PropertyUpdate) :
    (markDuplicate db newId candId = Except.ok db' → noChains db →
      idsUnique db → candId ≠ newId →
      (∀ r ∈ db.properties, r.duplicateOf ≠ some newId) →
      noChains db') ∧
    (noChains db → noChains (deleteProperty db pid)) ∧
    (insertProperty db np = Except.ok db' → np.duplicateOf = none →
      noChains db → noChains db') ∧
    (updateProperty db pid u = Except.ok db' → u.setDuplicateOf = none →
      noChains db → noChains db') :=
  ⟨fun h hnc hids hne hnoin =>
     markDuplicate_noChains db db' newId candId h hnc hids hne hnoin,
   fun hnc => delete_noChains db pid hnc,
   fun h hnone hnc => insert_noChains db db' np h hnone hnc,
   fun h hdup hnc => update_noChains db db' pid u h hdup hnc⟩

/-- Witness for C4 at a concrete store: marking fresh row 3 with the
root of row 2's chain lands on root 1 (never on non-root 2), and the
invariant survives that marking and a deletion. -/
theorem c4_duplicate_of_one_hop_witness :
    markDuplicate exDbDup 3 2 = Except.ok exDbDupRes ∧
    exRowCAfter.duplicateOf = some 1 ∧
    noChains exDbDupRes ∧
    noChains (deleteProperty exDbDup 1) :=
  ⟨by decide, by decide,
   (c4_duplicate_of_one_hop exDbDup exDbDupRes 3 2 1 exNpNoPrice
      exUNoop).1 (by decide) (by decide) (by decide) (by decide)
     (by decide),
   (c4_duplicate_of_one_hop exDbDup exDbDupRes 3 2 1 exNpNoPrice
      exUNoop).2.1 (by decide)⟩
